import Mathlib


/-!
Verification of the box-processing pipeline.

The development is a shallow embedding of the program's modules:

* `calculate_surface_area` / `calculate_capacity` — the pure geometry
  functions of `utils/math_utils.py`, stated polymorphically over a
  commutative ring so they can be read both at `ℝ` (the idealised numeric
  model of the Python floats) and at `ℚ` (the executable model used by the
  pipeline embedding).
* `generate_timing_statistics` — the statistics aggregator of
  `utils/math_utils.py`.  Sample values are modelled as rationals.  The
  Python code stores `statistics.stdev`, i.e. the square root of the
  Bessel-corrected sample variance; since that root is irrational in
  general, the embedding carries the radicand in the field `std_dev_sq`
  and theorems characterise the standard deviation as the unique
  nonnegative real square root of that field.
* `download_image_as_base64` — the image fetcher of `process_boxes.py`.
  The filesystem and the network are oracles passed as function arguments
  (`none` models a raised `OSError` / `requests` exception); the
  `try/except` of the source is the fallback to `""`.
* `process_images` — the batch pipeline of `process_boxes.py`.  A row of
  the input table is a `RawRecord` whose fields are `Option`-valued
  (`none` models a missing column, `Cell.str` a non-numeric cell); Python
  exceptions (`KeyError`, `TypeError`) are modelled with `Except`.  Wall
  clock timing is an oracle `elapsed : ℕ → ℚ` giving the measured
  duration of each iteration.
* `generate_csv_output` / `generate_markdown_output` — the report
  renderers of `utils/report_utils.py`, producing the list of CSV cells
  per row and the list of markdown lines.
-/

/-! ## Geometry (`utils/math_utils.py`) -/

/-- `calculate_surface_area` from `utils/math_utils.py`:
`2 * (weight * breadth + weight * height + breadth * height)`. -/
def calculate_surface_area {α : Type} [CommRing α] (height weight breadth : α) : α :=
  2 * (weight * breadth + weight * height + breadth * height)

/-- `calculate_capacity` from `utils/math_utils.py`:
`height * weight * breadth`. -/
def calculate_capacity {α : Type} [CommRing α] (height weight breadth : α) : α :=
  height * weight * breadth

/-! ## Timing statistics (`utils/math_utils.py`) -/

/-- Result dictionary of `generate_timing_statistics` (absent `std_dev`,
see `std_dev_sq`: the source stores the square root of that field). -/
structure TimingStats where
  count : Nat
  average : ℚ
  median : ℚ
  min : ℚ
  max : ℚ
  std_dev_sq : ℚ
  p90 : ℚ
  p99 : ℚ

/-- Python's stable `sorted` on a list of numbers. -/
def sortQ (l : List ℚ) : List ℚ := l.mergeSort (fun a b => decide (a ≤ b))

/-- Python's built-in `min` on a (nonempty) list. -/
def listMin : List ℚ → ℚ
  | [] => 0
  | x :: xs => xs.foldl min x

/-- Python's built-in `max` on a (nonempty) list. -/
def listMax : List ℚ → ℚ
  | [] => 0
  | x :: xs => xs.foldl max x

/-- `statistics.mean`. -/
def listMean (l : List ℚ) : ℚ := l.sum / l.length

/-- `statistics.median`: middle element of the sorted list, or the average
of the two middle elements when the length is even. -/
def listMedian (l : List ℚ) : ℚ :=
  let s := sortQ l
  let n := s.length
  if n % 2 = 1 then s.getD (n / 2) 0
  else (s.getD (n / 2 - 1) 0 + s.getD (n / 2) 0) / 2

/-- The Bessel-corrected sample variance, the square of `statistics.stdev`. -/
def sampleVariance (l : List ℚ) : ℚ :=
  (l.map (fun x => (x - listMean l) ^ 2)).sum / ((l.length : ℚ) - 1)

/-- `np.percentile` with the default linear interpolation between closest
ranks: virtual rank `h = (n-1)·q/100`, result
`a[⌊h⌋] + (h - ⌊h⌋)·(a[⌈h⌉] - a[⌊h⌋])` on the sorted data `a`. -/
def percentile (l : List ℚ) (q : ℚ) : ℚ :=
  let s := sortQ l
  let h : ℚ := ((s.length : ℚ) - 1) * q / 100
  s.getD (⌊h⌋).toNat 0 + (h - (⌊h⌋ : ℚ)) * (s.getD (⌈h⌉).toNat 0 - s.getD (⌊h⌋).toNat 0)

/-- `generate_timing_statistics` from `utils/math_utils.py`.  The empty
dictionary returned for an empty input is modelled as `none`. -/
def generate_timing_statistics (processing_times : List ℚ) : Option TimingStats :=
  if processing_times.isEmpty then none
  else some
    { count := processing_times.length
      average := listMean processing_times
      median := listMedian processing_times
      min := listMin processing_times
      max := listMax processing_times
      std_dev_sq :=
        if 1 < processing_times.length then sampleVariance processing_times else 0
      p90 := percentile processing_times 90
      p99 := percentile processing_times 99 }

/-! ### Helper lemmas about sorting and folds -/

/-! ## Batch pipeline (`process_boxes.py`) -/

/-- A cell of the input table: a numeric value, or a non-numeric string
(pandas hands unparseable entries to the calculation as Python strings,
on which the arithmetic of `calculate_surface_area` raises `TypeError`). -/
inductive Cell
  | num (q : ℚ)
  | str (s : String)

/-- A row of the input CSV as consumed by `process_images`; `none` models
a column missing from the file, on which `row[...]` raises `KeyError`. -/
structure RawRecord where
  image_id : Option String
  image_url : Option String
  height : Option Cell
  weight : Option Cell
  breadth : Option Cell

/-- An element of the `processed_data` list built by `process_images`. -/
structure EnrichedRecord where
  image_id : String
  image_url : String
  height : ℚ
  weight : ℚ
  breadth : ℚ
  surface_area : ℚ
  capacity : ℚ
  processing_time : ℚ
  image_base64 : String

/-- The field is present and numeric. -/
def isNumCell : Option Cell → Bool
  | some (Cell.num _) => true
  | _ => false

/-- All five required fields are present and the three dimensions are
numeric: the loop body of `process_images` raises no exception on such a
record. -/
def wellFormed (r : RawRecord) : Bool :=
  r.image_id.isSome && r.image_url.isSome &&
    isNumCell r.height && isNumCell r.weight && isNumCell r.breadth

/-- One iteration of the loop body of `process_images`: extract the five
fields (`KeyError` when missing), compute surface area and capacity
(`TypeError` on a non-numeric dimension), fetch the image through the
oracle `fetch`, and record the measured wall-clock duration `elapsed`.
Python exceptions are modelled as `Except.error`. -/
def processRecord (fetch : String → String) (elapsed : ℚ) (r : RawRecord) :
    Except String EnrichedRecord :=
  match r.image_id, r.image_url, r.height, r.weight, r.breadth with
  | some image_id, some image_url, some hc, some wc, some bc =>
    match hc, wc, bc with
    | Cell.num height, Cell.num weight, Cell.num breadth =>
      Except.ok
        { image_id := image_id
          image_url := image_url
          height := height
          weight := weight
          breadth := breadth
          surface_area := calculate_surface_area height weight breadth
          capacity := calculate_capacity height weight breadth
          processing_time := elapsed
          image_base64 := fetch image_url }
    | _, _, _ => Except.error ("TypeError")
  | _, _, _, _, _ => Except.error ("KeyError")

/-- `process_images` from `process_boxes.py`: the sequential loop over the
rows, appending to `processed_data` and `processing_times` in iteration
order; the first uncaught exception aborts the whole call and discards
the partial lists.  `i` is the running row index, threaded so that the
timing oracle can give each iteration its own duration. -/
def process_images (fetch : String → String) (elapsed : Nat → ℚ) :
    Nat → List RawRecord → Except String (List EnrichedRecord × List ℚ)
  | _, [] => Except.ok ([], [])
  | i, r :: rs =>
    match processRecord fetch (elapsed i) r with
    | Except.error e => Except.error e
    | Except.ok enr =>
      match process_images fetch elapsed (i + 1) rs with
      | Except.error e => Except.error e
      | Except.ok (ds, ts) => Except.ok (enr :: ds, enr.processing_time :: ts)

/-- The enriched record `e` is exactly the enrichment of the input row
`r`: same identifier, image reference and dimensions, derived quantities
computed by the geometry functions from `r`'s dimensions, image payload
from the fetcher, and the iteration's measured duration `t`. -/
def Corresponds (fetch : String → String) (t : ℚ) (r : RawRecord)
    (e : EnrichedRecord) : Prop :=
  r.image_id = some e.image_id ∧ r.image_url = some e.image_url ∧
    r.height = some (Cell.num e.height) ∧ r.weight = some (Cell.num e.weight) ∧
    r.breadth = some (Cell.num e.breadth) ∧
    e.surface_area = calculate_surface_area e.height e.weight e.breadth ∧
    e.capacity = calculate_capacity e.height e.weight e.breadth ∧
    e.image_base64 = fetch e.image_url ∧
    e.processing_time = t

/-! ## Image fetcher (`download_image_as_base64` in `process_boxes.py`) -/

/-- An HTTP response as observed through `requests.get`: status code,
optional `content-type` header, body bytes. -/
structure HttpResponse where
  status : Nat
  contentType : Option String
  body : List Nat

/-- `s.startswith(pat)` on character lists (pattern first). -/
def startsWithL : List Char → List Char → Bool
  | [], _ => true
  | _ :: _, [] => false
  | p :: ps, c :: cs => (p == c) && startsWithL ps cs

/-- Python's `str.replace(pat, new)` scanning left to right over
non-overlapping occurrences.  The `Nat` argument is recursion fuel spent
one unit per consumed character; `replaceAll` supplies the string length,
which suffices because every step consumes at least one character. -/
def replaceAllAux (pat new : List Char) : Nat → List Char → List Char
  | _, [] => []
  | 0, s => s
  | fuel + 1, c :: rest =>
    if pat ≠ [] ∧ startsWithL pat (c :: rest) = true then
      new ++ replaceAllAux pat new fuel ((c :: rest).drop pat.length)
    else
      c :: replaceAllAux pat new fuel rest

/-- Python's `str.replace(pat, new)` (for a nonempty pattern). -/
def replaceAll (pat new s : List Char) : List Char :=
  replaceAllAux pat new s.length s

/-- The local-file scheme marker `'file://'`. -/
def fileScheme : List Char := "file://".toList

/-- `url.replace('file://', '')` from the source.  Note this deletes every
occurrence of the substring, not only the leading prefix. -/
def removeFileScheme (url : String) : String :=
  String.mk (replaceAll fileScheme [] url.toList)

/-- `Path(p).suffix`: the extension of the final path component including
its dot; empty when that name has no dot, when its only dot is leading,
or when it ends in a dot. -/
def Path_suffix (p : List Char) : List Char :=
  let name := (p.reverse.takeWhile (fun c => c != '/')).reverse
  let tail := name.reverse.takeWhile (fun c => c != '.')
  if tail.length = name.length then []
  else
    let i := name.length - 1 - tail.length
    if 0 < i ∧ i < name.length - 1 then name.drop i else []

/-- The fixed `content_type_map` dictionary of the source together with
its `.get(ext, 'image/jpeg')` default. -/
def content_type_map (ext : String) : String :=
  if ext = ".png" then "image/png"
  else if ext = ".jpg" then "image/jpeg"
  else if ext = ".jpeg" then "image/jpeg"
  else if ext = ".gif" then "image/gif"
  else "image/jpeg"

/-- The base64 alphabet. -/
def b64Alphabet : List Char :=
  "ABCDEFGHIJKLMNOPQRSTUVWXYZabcdefghijklmnopqrstuvwxyz0123456789+/".toList

/-- Character of the base64 alphabet at a 6-bit index. -/
def b64Char (n : Nat) : Char := b64Alphabet.getD n 'A'

/-- `base64.b64encode(...).decode('utf-8')` on a byte list: three-byte
groups become four alphabet characters, with `=` padding at the end. -/
def b64encodeChars : List Nat → List Char
  | [] => []
  | [a] => [b64Char (a / 4), b64Char (a % 4 * 16), '=', '=']
  | [a, b] =>
    [b64Char (a / 4), b64Char (a % 4 * 16 + b / 16), b64Char (b % 16 * 4), '=']
  | a :: b :: c :: rest =>
    b64Char (a / 4) :: b64Char (a % 4 * 16 + b / 16) ::
      b64Char (b % 16 * 4 + c / 64) :: b64Char (c % 64) :: b64encodeChars rest

/-- Base64 encoding as a string. -/
def b64encode (bytes : List Nat) : String := String.mk (b64encodeChars bytes)

/-- `url.startswith('file://')`. -/
def isFileRef (url : String) : Bool := startsWithL fileScheme url.toList

/-- `download_image_as_base64` from `process_boxes.py`.  The filesystem
and the network are oracles: `fs path = none` models `open` raising,
`http url = none` models `requests.get` raising (connection error or
timeout); `raise_for_status` raises exactly for client and server
errors, i.e. statuses with `400 ≤ status < 600`, and for no others (in
particular not for a final 3xx response).  The enclosing `try/except`
turns every raised error into the return value `""`.  The source's
local variables `file_path`, `ext` and `content_type` are inlined. -/
def download_image_as_base64 (fs : String → Option (List Nat))
    (http : String → Option HttpResponse) (url : String) : String :=
  if isFileRef url then
    match fs (removeFileScheme url) with
    | none => ""
    | some image_content =>
      "data:" ++
        content_type_map
          (String.mk ((Path_suffix (removeFileScheme url).toList).map
            Char.toLower)) ++
        ";base64," ++ b64encode image_content
  else
    match http url with
    | none => ""
    | some response =>
      if 400 ≤ response.status ∧ response.status < 600 then ""
      else
        "data:" ++ response.contentType.getD ("image/jpeg") ++ ";base64," ++
          b64encode response.body

/-! ## Report renderers (`utils/report_utils.py`) -/

/-- Python's `round` to an integer on rationals: nearest, ties to even. -/
def roundHalfEven (q : ℚ) : ℤ :=
  if q - ⌊q⌋ < 1 / 2 then ⌊q⌋
  else if 1 / 2 < q - ⌊q⌋ then ⌊q⌋ + 1
  else if ⌊q⌋ % 2 = 0 then ⌊q⌋ else ⌊q⌋ + 1

/-- Python's `round(x, d)` idealised on rationals. -/
def pyround (d : Nat) (q : ℚ) : ℚ := (roundHalfEven (q * 10 ^ d) : ℚ) / 10 ^ d

/-- Fixed-point formatting `'{:.df}'.format(x)` idealised on rationals:
round half-to-even at `d` places, print exactly `d` fractional digits. -/
def formatFix (d : Nat) (q : ℚ) : String :=
  let scaled := roundHalfEven (q * 10 ^ d)
  let sign := if scaled < 0 then "-" else ""
  let a := scaled.natAbs
  let ip := Nat.repr (a / 10 ^ d)
  let fp := Nat.repr (a % 10 ^ d)
  let pad := String.mk (List.replicate (d - fp.length) '0')
  if d = 0 then sign ++ ip else sign ++ ip ++ "." ++ pad ++ fp

/-- A CSV cell: the identifier and URL columns carry strings, the numeric
columns carry rationals (pandas writes them back as numbers). -/
inductive CsvCell
  | strCell (v : String)
  | numCell (v : ℚ)
deriving DecidableEq

/-- The header of `generate_csv_output`, in column order. -/
def csvHeader : List String :=
  ["image_id", "image_url", "height", "weight", "breadth", "surface_area",
    "capacity", "processing_time"]

/-- One row built by the loop of `generate_csv_output`: the eight columns
in order, `surface_area` and `capacity` rounded to 2 decimals and
`processing_time` to 3; `image_base64` is deliberately not consulted. -/
def csvRowOf (item : EnrichedRecord) : List CsvCell :=
  [CsvCell.strCell item.image_id, CsvCell.strCell item.image_url,
    CsvCell.numCell item.height, CsvCell.numCell item.weight,
    CsvCell.numCell item.breadth,
    CsvCell.numCell (pyround 2 item.surface_area),
    CsvCell.numCell (pyround 2 item.capacity),
    CsvCell.numCell (pyround 3 item.processing_time)]

/-- `generate_csv_output` from `utils/report_utils.py`: header row plus
one row per record (the DataFrame is written with `index=False`; the file
write itself is outside the model). -/
def generate_csv_output (processed_data : List EnrichedRecord) :
    List String × List (List CsvCell) :=
  (csvHeader, processed_data.map csvRowOf)

/-- The image column of the markdown data table: an embedded `<img>` tag
when `image_base64` is non-empty, otherwise a plain markdown link to the
image URL. -/
def imageDisplay (item : EnrichedRecord) : String :=
  if item.image_base64 ≠ "" then
    "<img src=\"" ++ item.image_base64 ++ "\" alt=\"Box " ++ item.image_id ++
      "\" width=\"150\" height=\"auto\">"
  else
    "[Image](" ++ item.image_url ++ ")"

/-- One row of the main markdown data table. -/
def mdTableRow (item : EnrichedRecord) : String :=
  "| " ++ item.image_id ++ " | " ++ imageDisplay item ++ " | " ++
    formatFix 2 item.surface_area ++ " | " ++ formatFix 2 item.capacity ++
    " | " ++ formatFix 3 item.processing_time ++ " |"

/-- The detail-section lines for one record.  A dimension's bare `str()`
rendering is abstracted by `toString`. -/
def mdDetail (item : EnrichedRecord) : List String :=
  ["### Box " ++ item.image_id, "",
    "- **Image URL**: " ++ item.image_url,
    "- **Dimensions**: " ++ toString item.height ++ " × " ++
      toString item.weight ++ " × " ++ toString item.breadth,
    "- **Surface Area**: " ++ formatFix 2 item.surface_area ++ " square units",
    "- **Capacity**: " ++ formatFix 2 item.capacity ++ " cubic units",
    "- **Processing Time**: " ++ formatFix 3 item.processing_time ++ " seconds",
    ""]

/-- The timing-statistics table (empty for an empty stats dictionary).
The standard-deviation row prints `statistics.stdev`, the irrational
square root of `std_dev_sq`; its decimal rendering falls outside the
rational embedding and that one row is elided here — no claim concerns
it. -/
def statsSection (timing_stats : Option TimingStats) : List String :=
  match timing_stats with
  | none => []
  | some ts =>
    ["| Metric | Value (seconds) |",
      "|--------|-----------------|",
      "| Count | " ++ Nat.repr ts.count ++ " |",
      "| Average | " ++ formatFix 3 ts.average ++ " |",
      "| Median | " ++ formatFix 3 ts.median ++ " |",
      "| Minimum | " ++ formatFix 3 ts.min ++ " |",
      "| Maximum | " ++ formatFix 3 ts.max ++ " |",
      "| 90th Percentile (P90) | " ++ formatFix 3 ts.p90 ++ " |",
      "| 99th Percentile (P99) | " ++ formatFix 3 ts.p99 ++ " |"]

/-- `generate_markdown_output` from `utils/report_utils.py` as the list of
markdown lines (the file write is outside the model). -/
def generate_markdown_output (processed_data : List EnrichedRecord)
    (timing_stats : Option TimingStats) : List String :=
  ["# Box Processing Results", "",
    "This report contains the processing results for box dimensions, including surface area and capacity calculations.",
    "",
    "## Box Data and Images", "",
    "| Image ID | Image | Surface Area (sq units) | Capacity (cubic units) | Processing Time (s) |",
    "|----------|-------|--------------------------|-------------------------|---------------------|"]
  ++ processed_data.map mdTableRow
  ++ ["", "## Processing Time Statistics", ""]
  ++ statsSection timing_stats
  ++ ["", "## Detailed Box Information", ""]
  ++ (processed_data.map mdDetail).flatten

/-! ## Theorems -/

theorem sortQ_eq_of_sorted (l : List ℚ) (h : l.Sorted (· ≤ ·)) : sortQ l = l := by
  apply @List.eq_of_perm_of_sorted ℚ (· ≤ ·) _ _ _ (List.mergeSort_perm l _)
  · exact List.sorted_mergeSort' l
  · exact h

theorem sortQ_perm (l : List ℚ) : (sortQ l).Perm l := List.mergeSort_perm l _

theorem sortQ_length (l : List ℚ) : (sortQ l).length = l.length :=
  List.length_mergeSort l

theorem foldl_min_le_init (xs : List ℚ) : ∀ a : ℚ, xs.foldl min a ≤ a := by
  induction xs with
  | nil => intro a; simp
  | cons y ys ih =>
    intro a
    calc (y :: ys).foldl min a = ys.foldl min (min a y) := by simp
    _ ≤ min a y := ih _
    _ ≤ a := min_le_left _ _

theorem foldl_min_le_mem (xs : List ℚ) :
    ∀ a x : ℚ, x ∈ xs → xs.foldl min a ≤ x := by
  induction xs with
  | nil => intro a x hx; cases hx
  | cons y ys ih =>
    intro a x hx
    rcases List.mem_cons.mp hx with h | h
    · subst h
      calc (x :: ys).foldl min a = ys.foldl min (min a x) := by simp
      _ ≤ min a x := foldl_min_le_init _ _
      _ ≤ x := min_le_right _ _
    · simpa using ih (min a y) x h

theorem init_le_foldl_max (xs : List ℚ) : ∀ a : ℚ, a ≤ xs.foldl max a := by
  induction xs with
  | nil => intro a; simp
  | cons y ys ih =>
    intro a
    calc a ≤ max a y := le_max_left _ _
    _ ≤ ys.foldl max (max a y) := ih _
    _ = (y :: ys).foldl max a := by simp

theorem mem_le_foldl_max (xs : List ℚ) :
    ∀ a x : ℚ, x ∈ xs → x ≤ xs.foldl max a := by
  induction xs with
  | nil => intro a x hx; cases hx
  | cons y ys ih =>
    intro a x hx
    rcases List.mem_cons.mp hx with h | h
    · subst h
      calc x ≤ max a x := le_max_right _ _
      _ ≤ ys.foldl max (max a x) := init_le_foldl_max _ _
      _ = (x :: ys).foldl max a := by simp
    · simpa using ih (max a y) x h

theorem listMin_le_of_mem {l : List ℚ} {x : ℚ} (hx : x ∈ l) : listMin l ≤ x := by
  cases l with
  | nil => cases hx
  | cons y ys =>
    rcases List.mem_cons.mp hx with h | h
    · subst h; exact foldl_min_le_init _ _
    · exact foldl_min_le_mem _ _ _ h

theorem le_listMax_of_mem {l : List ℚ} {x : ℚ} (hx : x ∈ l) : x ≤ listMax l := by
  cases l with
  | nil => cases hx
  | cons y ys =>
    rcases List.mem_cons.mp hx with h | h
    · subst h; exact init_le_foldl_max _ _
    · exact mem_le_foldl_max _ _ _ h

theorem listMin_le_mean (l : List ℚ) (h : l ≠ []) : listMin l ≤ listMean l := by
  have hlen : (0 : ℚ) < l.length := by
    exact_mod_cast List.length_pos.mpr h
  have hsum : l.length • listMin l ≤ l.sum :=
    List.card_nsmul_le_sum l _ (fun x hx => listMin_le_of_mem hx)
  rw [listMean, le_div_iff₀ hlen]
  calc listMin l * l.length = l.length • listMin l := by rw [nsmul_eq_mul]; ring
  _ ≤ l.sum := hsum

theorem mean_le_listMax (l : List ℚ) (h : l ≠ []) : listMean l ≤ listMax l := by
  have hlen : (0 : ℚ) < l.length := by
    exact_mod_cast List.length_pos.mpr h
  have hsum : l.sum ≤ l.length • listMax l :=
    List.sum_le_card_nsmul l _ (fun x hx => le_listMax_of_mem hx)
  rw [listMean, div_le_iff₀ hlen]
  calc l.sum ≤ l.length • listMax l := hsum
  _ = listMax l * l.length := by rw [nsmul_eq_mul]; ring

theorem sortQ_getD_mem (l : List ℚ) (i : Nat) (hi : i < (sortQ l).length) :
    (sortQ l).getD i 0 ∈ l := by
  rw [List.getD_eq_getElem?_getD, List.getElem?_eq_getElem hi]
  exact (sortQ_perm l).mem_iff.mp (List.getElem_mem hi)

theorem listMedian_bounds (l : List ℚ) (h : l ≠ []) :
    listMin l ≤ listMedian l ∧ listMedian l ≤ listMax l := by
  have hpos : 0 < l.length := List.length_pos.mpr h
  have hslen : (sortQ l).length = l.length := sortQ_length l
  unfold listMedian
  by_cases hodd : (sortQ l).length % 2 = 1
  · simp only [hodd, if_pos]
    have hi : (sortQ l).length / 2 < (sortQ l).length := by omega
    have hmem := sortQ_getD_mem l _ hi
    exact ⟨listMin_le_of_mem hmem, le_listMax_of_mem hmem⟩
  · simp only [hodd, if_neg, ite_false]
    have htwo : 2 ≤ (sortQ l).length := by omega
    have hi1 : (sortQ l).length / 2 - 1 < (sortQ l).length := by omega
    have hi2 : (sortQ l).length / 2 < (sortQ l).length := by omega
    have hm1 := sortQ_getD_mem l _ hi1
    have hm2 := sortQ_getD_mem l _ hi2
    constructor
    · have a1 := listMin_le_of_mem hm1
      have a2 := listMin_le_of_mem hm2
      linarith
    · have a1 := le_listMax_of_mem hm1
      have a2 := le_listMax_of_mem hm2
      linarith

/-- C1: for all inputs (zero and negative included),
`calculate_surface_area` returns exactly
`2·(weight·breadth + weight·height + breadth·height)` and
`calculate_capacity` returns exactly `height·weight·breadth`; both are
total functions with no error condition. -/
theorem geometry_formulas_exact :
    ∀ height weight breadth : ℝ,
      calculate_surface_area height weight breadth
          = 2 * (weight * breadth + weight * height + breadth * height) ∧
        calculate_capacity height weight breadth = height * weight * breadth :=
  fun _ _ _ => ⟨rfl, rfl⟩

/-- C6: on the empty sample sequence the aggregator returns the absent
statistics object (`none`), which is distinct from the populated result
(`some …`) produced for every nonempty sequence; no division by zero is
involved (the function is total). -/
theorem empty_stats_absent :
    generate_timing_statistics [] = none ∧
      ∀ l : List ℚ, l ≠ [] → (generate_timing_statistics l).isSome = true := by
  constructor
  · rfl
  · intro l hl
    simp [generate_timing_statistics, List.isEmpty_iff, hl]

/-- Witness for C6 at the concrete nonempty input `[5]`. -/
theorem empty_stats_absent_witness :
    (generate_timing_statistics [5]).isSome = true :=
  empty_stats_absent.2 [5] (by simp)

/-- C10: whenever the aggregator returns a populated statistics object,
`count` is the number of samples, and both the average and the median lie
between the minimum and the maximum. -/
theorem stats_bounds (l : List ℚ) (s : TimingStats)
    (hgen : generate_timing_statistics l = some s) :
    s.count = l.length ∧ s.min ≤ s.average ∧ s.average ≤ s.max ∧
      s.min ≤ s.median ∧ s.median ≤ s.max := by
  unfold generate_timing_statistics at hgen
  by_cases he : l.isEmpty
  · simp [he] at hgen
  · rw [if_neg (by simpa using he)] at hgen
    have hne : l ≠ [] := by simpa [List.isEmpty_iff] using he
    simp only [Option.some.injEq] at hgen
    subst hgen
    refine ⟨rfl, ?_, ?_, ?_, ?_⟩
    · exact listMin_le_mean l hne
    · exact mean_le_listMax l hne
    · exact (listMedian_bounds l hne).1
    · exact (listMedian_bounds l hne).2

/-- Witness for C10 at the concrete input `[1, 3]`. -/
theorem stats_bounds_witness :
    ∃ s, generate_timing_statistics [1, 3] = some s ∧
      s.count = 2 ∧ s.min ≤ s.average ∧ s.average ≤ s.max ∧
      s.min ≤ s.median ∧ s.median ≤ s.max := by
  refine ⟨_, rfl, ?_⟩
  have h := stats_bounds [1, 3] _ rfl
  exact ⟨h.1, h.2.1, h.2.2.1, h.2.2.2.1, h.2.2.2.2⟩

theorem sortQ_singleton (x : ℚ) : sortQ [x] = [x] :=
  sortQ_eq_of_sorted _ (List.sorted_singleton x)

theorem percentile_singleton (x q : ℚ) : percentile [x] q = x := by
  simp [percentile, sortQ_singleton, List.getD]

theorem gen_singleton (x : ℚ) :
    generate_timing_statistics [x] = some ⟨1, x, x, x, x, 0, x, x⟩ := by
  unfold generate_timing_statistics
  rw [if_neg (by simp)]
  simp only [Option.some.injEq, TimingStats.mk.injEq]
  refine ⟨by simp, by simp [listMean], ?_, rfl, rfl, by simp, percentile_singleton x 90,
    percentile_singleton x 99⟩
  simp [listMedian, sortQ_singleton, List.getD]

theorem sortQ_15 : sortQ [1, 2, 3, 4, 5] = [1, 2, 3, 4, 5] := by
  apply sortQ_eq_of_sorted
  simp [List.sorted_cons]
  norm_num

theorem sortQ_14 : sortQ [1, 2, 3, 4] = [1, 2, 3, 4] := by
  apply sortQ_eq_of_sorted
  simp [List.sorted_cons]
  norm_num

/-- C4: the aggregator computes count, the arithmetic mean, the standard
median (average of the two middle values for an even count), the extrema,
the Bessel-corrected sample standard deviation (`0` for a single sample;
carried here squared as `std_dev_sq`), and percentiles by linear
interpolation between closest ranks (so `p90` of five samples is `4.6`,
not the nearest-rank `5`); in particular on `[1,2,3,4,5]` it yields
average `3`, median `3`, min `1`, max `5` and a standard deviation —
the nonnegative real root of `std_dev_sq` — within `10⁻³` of `1.5811`. -/
theorem timing_stats_aggregate :
    (∀ l : List ℚ, l ≠ [] → ∃ s, generate_timing_statistics l = some s ∧
        s.count = l.length ∧ s.average = l.sum / l.length) ∧
      (∀ x : ℚ, generate_timing_statistics [x] = some ⟨1, x, x, x, x, 0, x, x⟩) ∧
      (∃ s, generate_timing_statistics [1, 2, 3, 4] = some s ∧
        s.median = (2 + 3) / 2) ∧
      (∃ s, generate_timing_statistics [1, 2, 3, 4, 5] = some s ∧
        s.average = 3 ∧ s.median = 3 ∧ s.min = 1 ∧ s.max = 5 ∧
        s.std_dev_sq = 5 / 2 ∧ s.p90 = 23 / 5 ∧ s.p99 = 124 / 25 ∧
        ∀ sd : ℝ, 0 ≤ sd → sd ^ 2 = (s.std_dev_sq : ℝ) →
          |sd - 1.5811| < 1 / 1000) := by
  refine ⟨?_, gen_singleton, ?_, ?_⟩
  · intro l hl
    have hgen : generate_timing_statistics l = some
        { count := l.length, average := listMean l, median := listMedian l,
          min := listMin l, max := listMax l,
          std_dev_sq := if 1 < l.length then sampleVariance l else 0,
          p90 := percentile l 90, p99 := percentile l 99 } := by
      unfold generate_timing_statistics
      rw [if_neg (by simpa [List.isEmpty_iff] using hl)]
    exact ⟨_, hgen, rfl, rfl⟩
  · refine ⟨_, rfl, ?_⟩
    show listMedian [1, 2, 3, 4] = (2 + 3) / 2
    simp [listMedian, sortQ_14, List.getD]
  · refine ⟨_, rfl, ?_, ?_, ?_, ?_, ?_, ?_, ?_, ?_⟩
    · show listMean [1, 2, 3, 4, 5] = 3
      simp [listMean]
      norm_num
    · show listMedian [1, 2, 3, 4, 5] = 3
      simp [listMedian, sortQ_15, List.getD]
    · show listMin [1, 2, 3, 4, 5] = 1
      norm_num [listMin, min_def]
    · show listMax [1, 2, 3, 4, 5] = 5
      norm_num [listMax, max_def]
    · show (if 1 < ([1, 2, 3, 4, 5] : List ℚ).length
          then sampleVariance [1, 2, 3, 4, 5] else 0) = 5 / 2
      rw [if_pos (by simp)]
      have hm : listMean [1, 2, 3, 4, 5] = 3 := by simp [listMean]; norm_num
      simp [sampleVariance, hm]
      norm_num
    · show percentile [1, 2, 3, 4, 5] 90 = 23 / 5
      have hf : ⌊(18 / 5 : ℚ)⌋ = 3 := by norm_num
      have hc : ⌈(18 / 5 : ℚ)⌉ = 4 := by rw [Int.ceil_eq_iff]; norm_num
      have h3 : Int.toNat 3 = 3 := by decide
      have h4 : Int.toNat 4 = 4 := by decide
      simp only [percentile, sortQ_15, List.length_cons, List.length_nil]
      norm_num [hf, hc, h3, h4, List.getD]
    · show percentile [1, 2, 3, 4, 5] 99 = 124 / 25
      have hf : ⌊(99 / 25 : ℚ)⌋ = 3 := by norm_num
      have hc : ⌈(99 / 25 : ℚ)⌉ = 4 := by rw [Int.ceil_eq_iff]; norm_num
      have h3 : Int.toNat 3 = 3 := by decide
      have h4 : Int.toNat 4 = 4 := by decide
      simp only [percentile, sortQ_15, List.length_cons, List.length_nil]
      norm_num [hf, hc, h3, h4, List.getD]
    · intro sd h0 h2
      show |sd - 1.5811| < 1 / 1000
      have hsq : sd ^ 2 = 5 / 2 := by
        rw [h2]
        show ((if 1 < ([1, 2, 3, 4, 5] : List ℚ).length
            then sampleVariance [1, 2, 3, 4, 5] else 0 : ℚ) : ℝ) = 5 / 2
        rw [if_pos (by simp)]
        have hm : listMean [1, 2, 3, 4, 5] = 3 := by simp [listMean]; norm_num
        have : sampleVariance [1, 2, 3, 4, 5] = 5 / 2 := by
          simp [sampleVariance, hm]; norm_num
        rw [this]
        norm_num
      rw [abs_sub_lt_iff]
      constructor <;> nlinarith

/-- Witness for C4: the general clause at the nonempty input `[7]`, and
the standard-deviation characterisation discharged with the concrete
nonnegative root `√(5/2)`. -/
theorem timing_stats_aggregate_witness :
    (∃ s, generate_timing_statistics [7] = some s ∧ s.count = 1) ∧
      |Real.sqrt (5 / 2) - 1.5811| < 1 / 1000 := by
  constructor
  · obtain ⟨s, hgen, hcount, -⟩ :=
      timing_stats_aggregate.1 [7] (by simp)
    exact ⟨s, hgen, by simpa using hcount⟩
  · obtain ⟨s, -, -, -, -, -, hsd, -, -, hchar⟩ :=
      timing_stats_aggregate.2.2.2
    apply hchar _ (Real.sqrt_nonneg _)
    rw [hsd]
    push_cast
    rw [Real.sq_sqrt (by norm_num)]

theorem isNumCell_shape {o : Option Cell} (h : isNumCell o = true) :
    ∃ q, o = some (Cell.num q) := by
  cases o with
  | none => simp [isNumCell] at h
  | some c =>
    cases c with
    | num q => exact ⟨q, rfl⟩
    | str s => simp [isNumCell] at h

theorem processRecord_ok_of_wellFormed (fetch : String → String) (t : ℚ)
    {r : RawRecord} (h : wellFormed r = true) :
    ∃ e, processRecord fetch t r = Except.ok e ∧ Corresponds fetch t r e := by
  rcases r with ⟨oid, ourl, oh, ow, ob⟩
  unfold wellFormed at h
  rw [Bool.and_eq_true, Bool.and_eq_true, Bool.and_eq_true, Bool.and_eq_true] at h
  obtain ⟨⟨⟨⟨hid, hurl⟩, hh⟩, hw⟩, hb⟩ := h
  obtain ⟨id, hid⟩ := Option.isSome_iff_exists.mp hid
  obtain ⟨url, hurl⟩ := Option.isSome_iff_exists.mp hurl
  obtain ⟨hq, hh⟩ := isNumCell_shape hh
  obtain ⟨wq, hw⟩ := isNumCell_shape hw
  obtain ⟨bq, hb⟩ := isNumCell_shape hb
  subst hid hurl hh hw hb
  exact ⟨_, rfl, rfl, rfl, rfl, rfl, rfl, rfl, rfl, rfl, rfl⟩

theorem processRecord_error_of_malformed (fetch : String → String) (t : ℚ)
    {r : RawRecord} (h : wellFormed r = false) :
    ∃ msg, processRecord fetch t r = Except.error msg := by
  rcases r with ⟨oid, ourl, oh, ow, ob⟩
  rcases oid with _ | id
  · exact ⟨_, rfl⟩
  rcases ourl with _ | url
  · exact ⟨_, rfl⟩
  rcases oh with _ | hc
  · exact ⟨_, rfl⟩
  rcases ow with _ | wc
  · rcases hc with hq | hs <;> exact ⟨_, rfl⟩
  rcases ob with _ | bc
  · rcases hc with hq | hs <;> rcases wc with wq | ws <;> exact ⟨_, rfl⟩
  rcases hc with hq | hs <;> rcases wc with wq | ws <;> rcases bc with bq | bs
  all_goals first
    | exact ⟨_, rfl⟩
    | (simp [wellFormed, isNumCell] at h)

theorem process_images_ok (fetch : String → String) (elapsed : Nat → ℚ) :
    ∀ (k : Nat) (records : List RawRecord),
      (∀ r ∈ records, wellFormed r = true) →
      ∃ data times,
        process_images fetch elapsed k records = Except.ok (data, times) ∧
          data.length = records.length ∧ times.length = records.length ∧
          ∀ i r, records[i]? = some r →
            ∃ e, data[i]? = some e ∧ times[i]? = some e.processing_time ∧
              Corresponds fetch (elapsed (k + i)) r e := by
  intro k records
  induction records generalizing k with
  | nil =>
    intro _
    exact ⟨[], [], rfl, rfl, rfl, by intro i r h; simp at h⟩
  | cons r rs ih =>
    intro hwf
    obtain ⟨e, he, hcorr⟩ :=
      processRecord_ok_of_wellFormed fetch (elapsed k) ((List.forall_mem_cons.mp hwf).1)
    obtain ⟨data, times, hrec, hdlen, htlen, hidx⟩ :=
      ih (k + 1) ((List.forall_mem_cons.mp hwf).2)
    refine ⟨e :: data, e.processing_time :: times, ?_, by simp [hdlen],
      by simp [htlen], ?_⟩
    · simp only [process_images, he, hrec]
    · intro i rr hr
      cases i with
      | zero =>
        simp only [List.getElem?_cons_zero, Option.some.injEq] at hr
        subst hr
        exact ⟨e, by simp, by simp, hcorr⟩
      | succ n =>
        simp only [List.getElem?_cons_succ] at hr ⊢
        obtain ⟨e', h1, h2, h3⟩ := hidx n rr hr
        have harith : k + 1 + n = k + (n + 1) := by omega
        rw [harith] at h3
        exact ⟨e', h1, h2, h3⟩

/-- C2: on well-formed input rows the pipeline returns an enriched
sequence and a timing sequence of the same length as the input, and for
every index `i` the enriched record at `i` is the enrichment of row `i`
(same identifier, reference and dimensions, derived quantities computed
from them) with `timings[i]` equal to that record's measured duration:
strict sequence order, no reordering, skipping or duplication. -/
theorem pipeline_preserves_order (fetch : String → String) (elapsed : Nat → ℚ)
    (records : List RawRecord) (h : ∀ r ∈ records, wellFormed r = true) :
    ∃ data times,
      process_images fetch elapsed 0 records = Except.ok (data, times) ∧
        data.length = records.length ∧ times.length = records.length ∧
        ∀ i r, records[i]? = some r →
          ∃ e, data[i]? = some e ∧ times[i]? = some e.processing_time ∧
            Corresponds fetch (elapsed i) r e := by
  obtain ⟨d, t, h1, h2, h3, h4⟩ := process_images_ok fetch elapsed 0 records h
  refine ⟨d, t, h1, h2, h3, fun i r hr => ?_⟩
  have := h4 i r hr
  simpa [Nat.zero_add] using this

/-- Witness for C2 on a concrete one-row table. -/
theorem pipeline_preserves_order_witness :
    ∃ data times,
      process_images (fun _ => "") (fun _ => 1) 0
          [({ image_id := some ("1"), image_url := some ("u"),
              height := some (Cell.num 2), weight := some (Cell.num 3),
              breadth := some (Cell.num 4) } : RawRecord)]
        = Except.ok (data, times) ∧ data.length = 1 ∧ times.length = 1 := by
  obtain ⟨d, t, h1, h2, h3, -⟩ :=
    pipeline_preserves_order (fun _ => "") (fun _ => 1)
      [({ image_id := some ("1"), image_url := some ("u"),
          height := some (Cell.num 2), weight := some (Cell.num 3),
          breadth := some (Cell.num 4) } : RawRecord)]
      (by intro r hr; simp at hr; subst hr; rfl)
  exact ⟨d, t, h1, by simpa using h2, by simpa using h3⟩

/-- C5: a malformed record (missing required field or non-numeric
dimension) anywhere in the batch makes the whole `process_images` call
surface an error to the caller — there is no per-record skipping — while
on a batch of well-formed records the call succeeds for every image
fetcher, in particular for one that fails on every record (returning
`""`): image-fetch failure never aborts the batch. -/
theorem malformed_aborts_batch :
    (∀ (fetch : String → String) (elapsed : Nat → ℚ) (k : Nat)
        (records : List RawRecord),
        (∃ r ∈ records, wellFormed r = false) →
        ∃ msg, process_images fetch elapsed k records = Except.error msg) ∧
      (∀ (fetch : String → String) (elapsed : Nat → ℚ) (k : Nat)
        (records : List RawRecord),
        (∀ r ∈ records, wellFormed r = true) →
        ∃ out, process_images fetch elapsed k records = Except.ok out) := by
  constructor
  · intro fetch elapsed k records
    induction records generalizing k with
    | nil => rintro ⟨r, hr, -⟩; cases hr
    | cons r rs ih =>
      rintro ⟨r', hr', hwf'⟩
      cases hw : wellFormed r with
      | false =>
        obtain ⟨msg, hmsg⟩ := processRecord_error_of_malformed fetch (elapsed k) hw
        exact ⟨msg, by simp only [process_images, hmsg]⟩
      | true =>
        have hr'' : r' ∈ rs := by
          rcases List.mem_cons.mp hr' with hcase | hcase
          · subst hcase; rw [hw] at hwf'; cases hwf'
          · exact hcase
        obtain ⟨msg, hmsg⟩ := ih (k + 1) ⟨r', hr'', hwf'⟩
        obtain ⟨e, he, -⟩ := processRecord_ok_of_wellFormed fetch (elapsed k) hw
        exact ⟨msg, by simp only [process_images, he, hmsg]⟩
  · intro fetch elapsed k records h
    obtain ⟨d, t, h1, -⟩ := process_images_ok fetch elapsed k records h
    exact ⟨(d, t), h1⟩

/-- Witness for C5: a one-row batch with a missing `image_id` errors; a
well-formed one-row batch succeeds even though the fetcher fails
(returns `""`) on it. -/
theorem malformed_aborts_batch_witness :
    (∃ msg, process_images (fun _ => "") (fun _ => 1) 0
        [({ image_id := none, image_url := some ("u"),
            height := some (Cell.num 1), weight := some (Cell.num 1),
            breadth := some (Cell.num 1) } : RawRecord)]
      = Except.error msg) ∧
      (∃ out, process_images (fun _ => "") (fun _ => 1) 0
        [({ image_id := some ("1"), image_url := some ("u"),
            height := some (Cell.num 1), weight := some (Cell.num 1),
            breadth := some (Cell.num 1) } : RawRecord)]
      = Except.ok out) := by
  constructor
  · exact malformed_aborts_batch.1 _ _ _ _ ⟨_, List.mem_cons_self _ _, rfl⟩
  · exact malformed_aborts_batch.2 _ _ _ _ (by intro r hr; simp at hr; subst hr; rfl)

/-- Counterexample to C3 as stated: the claim makes any non-2xx response
a failure yielding `""`, but `raise_for_status` does not raise for a
final `304` (non-2xx) response, so the fetch returns a data URI there,
not `""`. -/
theorem fetch_non2xx_counterexample :
    download_image_as_base64 (fun _ => none)
        (fun _ => some ⟨304, none, [1]⟩) "http://cached"
      = "data:image/jpeg;base64,AQ==" ∧
      download_image_as_base64 (fun _ => none)
        (fun _ => some ⟨304, none, [1]⟩) "http://cached" ≠ "" := by
  constructor
  · decide
  · decide

/-- C3 (amended): the image fetch never propagates an error, and on every
failure the caller receives `""` — where the failures are a raising
filesystem read (missing local file), a raising network fetch
(connection error or timeout), and a response whose status is a client
or server error, `400 ≤ status < 600` (exactly what `raise_for_status`
raises on).  A completed response with any other status — including
non-2xx statuses such as a final `304` — is treated as success and
yields a data URI instead. -/
theorem fetch_failure_yields_empty (fs : String → Option (List Nat))
    (http : String → Option HttpResponse) (url : String) :
    (isFileRef url = true →
        fs (removeFileScheme url) = none →
        download_image_as_base64 fs http url = "") ∧
      (isFileRef url = false →
        http url = none → download_image_as_base64 fs http url = "") ∧
      (isFileRef url = false →
        ∀ r, http url = some r → 400 ≤ r.status → r.status < 600 →
          download_image_as_base64 fs http url = "") ∧
      (isFileRef url = false →
        ∀ r, http url = some r → ¬(400 ≤ r.status ∧ r.status < 600) →
          download_image_as_base64 fs http url =
            "data:" ++ r.contentType.getD ("image/jpeg") ++ ";base64," ++
              b64encode r.body) := by
  refine ⟨?_, ?_, ?_, ?_⟩
  · intro hs hfs
    unfold download_image_as_base64
    rw [if_pos hs, hfs]
  · intro hs hhttp
    unfold download_image_as_base64
    rw [if_neg (by simp [hs]), hhttp]
  · intro hs r hhttp hlo hhi
    unfold download_image_as_base64
    rw [if_neg (by simp [hs]), hhttp]
    show (if 400 ≤ r.status ∧ r.status < 600 then ""
      else "data:" ++ r.contentType.getD ("image/jpeg") ++ ";base64," ++
        b64encode r.body) = ""
    exact if_pos ⟨hlo, hhi⟩
  · intro hs r hhttp hout
    unfold download_image_as_base64
    rw [if_neg (by simp [hs]), hhttp]
    show (if 400 ≤ r.status ∧ r.status < 600 then ""
      else "data:" ++ r.contentType.getD ("image/jpeg") ++ ";base64," ++
        b64encode r.body) = _
    exact if_neg hout

/-- Witness for C3: a missing local file, an unreachable URL, and a 404
response all yield `""`; a nonconforming 650-status response is outside
the raising range and yields a data URI. -/
theorem fetch_failure_yields_empty_witness :
    download_image_as_base64 (fun _ => none) (fun _ => none)
        "file:///missing.png" = "" ∧
      download_image_as_base64 (fun _ => none) (fun _ => none)
        "http://unreachable" = "" ∧
      download_image_as_base64 (fun _ => none)
        (fun _ => some ⟨404, none, []⟩) "http://gone" = "" ∧
      download_image_as_base64 (fun _ => none)
        (fun _ => some ⟨650, none, []⟩) "http://weird"
        = "data:" ++ (none : Option String).getD ("image/jpeg") ++
            ";base64," ++ b64encode [] := by
  refine ⟨?_, ?_, ?_, ?_⟩
  · exact (fetch_failure_yields_empty (fun _ => none) (fun _ => none)
      "file:///missing.png").1 (by decide) rfl
  · exact (fetch_failure_yields_empty (fun _ => none) (fun _ => none)
      "http://unreachable").2.1 (by decide) rfl
  · exact (fetch_failure_yields_empty (fun _ => none)
      (fun _ => some ⟨404, none, []⟩) "http://gone").2.2.1 (by decide) _ rfl
      (by decide) (by decide)
  · exact (fetch_failure_yields_empty (fun _ => none)
      (fun _ => some ⟨650, none, []⟩) "http://weird").2.2.2 (by decide) _ rfl
      (by decide)

/-- C7: every successful fetch returns exactly
`data:<content-type>;base64,<base64 of the raw bytes>`, with the
content type derived for local files from the extension through the fixed
map (`.png → image/png`, `.jpg`/`.jpeg → image/jpeg`, `.gif → image/gif`,
anything else defaulting to `image/jpeg`) and for remote fetches from the
server header, defaulting to `image/jpeg` when absent. -/
theorem data_uri_format :
    (∀ (fs : String → Option (List Nat)) (http : String → Option HttpResponse)
        (url : String) (bytes : List Nat),
        isFileRef url = true →
        fs (removeFileScheme url) = some bytes →
        download_image_as_base64 fs http url =
          "data:" ++
            content_type_map
              (String.mk ((Path_suffix (removeFileScheme url).toList).map
                Char.toLower)) ++
            ";base64," ++ b64encode bytes) ∧
      (∀ (fs : String → Option (List Nat)) (http : String → Option HttpResponse)
        (url : String) (r : HttpResponse),
        isFileRef url = false →
        http url = some r → r.status < 400 →
        download_image_as_base64 fs http url =
          "data:" ++ r.contentType.getD ("image/jpeg") ++ ";base64," ++
            b64encode r.body) ∧
      content_type_map (".png") = "image/png" ∧
      content_type_map (".jpg") = "image/jpeg" ∧
      content_type_map (".jpeg") = "image/jpeg" ∧
      content_type_map (".gif") = "image/gif" ∧
      (∀ ext : String, ext ≠ ".png" → ext ≠ ".jpg" → ext ≠ ".jpeg" →
        ext ≠ ".gif" → content_type_map ext = "image/jpeg") := by
  refine ⟨?_, ?_, by decide, by decide, by decide, by decide, ?_⟩
  · intro fs http url bytes hs hfs
    unfold download_image_as_base64
    rw [if_pos hs, hfs]
  · intro fs http url r hs hhttp hstatus
    unfold download_image_as_base64
    rw [if_neg (by simp [hs]), hhttp]
    show (if 400 ≤ r.status ∧ r.status < 600 then ""
      else "data:" ++ r.contentType.getD ("image/jpeg") ++ ";base64," ++
        b64encode r.body) = _
    rw [if_neg (fun hc => absurd hc.1 (Nat.not_le.mpr hstatus))]
  · intro ext h1 h2 h3 h4
    simp [content_type_map, h1, h2, h3, h4]

/-- Witness for C7: fetching a present local `.png` (one byte `137`)
returns the full data URI. -/
theorem data_uri_format_witness :
    download_image_as_base64
        (fun p => if p = "/tmp/a.png" then some [137] else none)
        (fun _ => none) "file:///tmp/a.png"
      = "data:image/png;base64,iQ==" := by
  have h := data_uri_format.1
    (fun p => if p = "/tmp/a.png" then some [137] else none)
    (fun _ => none) "file:///tmp/a.png" [137] (by decide) (by decide)
  rw [h]
  decide

/-- C9: for a reference recognised as local, the filesystem path consulted
is the reference with every occurrence of the substring `file://` deleted
(`str.replace` replaces all occurrences): the fetch result depends on the
filesystem only at that path, and on a reference containing `file://`
again after the leading prefix the interior occurrence is deleted too,
so the path differs from merely stripping the leading prefix. -/
theorem file_scheme_replace_all :
    (∀ (fs fs' : String → Option (List Nat))
        (http : String → Option HttpResponse) (url : String),
        isFileRef url = true →
        fs (removeFileScheme url) = fs' (removeFileScheme url) →
        download_image_as_base64 fs http url =
          download_image_as_base64 fs' http url) ∧
      removeFileScheme ("file:///tmp/file://img.png") = "/tmp/img.png" ∧
      removeFileScheme ("file:///tmp/file://img.png") ≠ "/tmp/file://img.png" := by
  refine ⟨?_, by decide, by decide⟩
  intro fs fs' http url hs hagree
  unfold download_image_as_base64
  rw [if_pos hs, if_pos hs, hagree]

/-- Witness for C9: with two filesystems that agree at `/tmp/img.png`
(the all-occurrences-deleted path) the fetches of
`file:///tmp/file://img.png` coincide. -/
theorem file_scheme_replace_all_witness :
    download_image_as_base64 (fun _ => some [1]) (fun _ => none)
        "file:///tmp/file://img.png"
      = download_image_as_base64
          (fun p => if p = "/tmp/img.png" then some [1] else none)
          (fun _ => none) "file:///tmp/file://img.png" :=
  file_scheme_replace_all.1 _ _ _ _ (by decide) (by decide)

/-- C8: the tabular output has one row per record with exactly the
columns image_id, image_url, height, weight, breadth, surface_area
(2 decimals), capacity (2 decimals), processing_time (3 decimals) in
that order, and each row is invariant under the record's encoded image
payload (never included); the narrative output contains for every record
a data-table row that embeds the image tag when the encoded image is
non-empty and a plain link to the image reference otherwise. -/
theorem report_outputs_shape :
    (∀ data : List EnrichedRecord,
        (generate_csv_output data).1 = csvHeader ∧
          (generate_csv_output data).2.length = data.length) ∧
      (∀ (data : List EnrichedRecord) (i : Nat) (item : EnrichedRecord),
        data[i]? = some item →
        (generate_csv_output data).2[i]? = some
          [CsvCell.strCell item.image_id, CsvCell.strCell item.image_url,
            CsvCell.numCell item.height, CsvCell.numCell item.weight,
            CsvCell.numCell item.breadth,
            CsvCell.numCell (pyround 2 item.surface_area),
            CsvCell.numCell (pyround 2 item.capacity),
            CsvCell.numCell (pyround 3 item.processing_time)]) ∧
      (∀ (item : EnrichedRecord) (s : String),
        csvRowOf { item with image_base64 := s } = csvRowOf item) ∧
      (∀ item : EnrichedRecord, item.image_base64 ≠ "" →
        mdTableRow item = "| " ++ item.image_id ++ " | " ++
          ("<img src=\"" ++ item.image_base64 ++ "\" alt=\"Box " ++
            item.image_id ++ "\" width=\"150\" height=\"auto\">") ++ " | " ++
          formatFix 2 item.surface_area ++ " | " ++
          formatFix 2 item.capacity ++ " | " ++
          formatFix 3 item.processing_time ++ " |") ∧
      (∀ item : EnrichedRecord, item.image_base64 = "" →
        mdTableRow item = "| " ++ item.image_id ++ " | " ++
          ("[Image](" ++ item.image_url ++ ")") ++ " | " ++
          formatFix 2 item.surface_area ++ " | " ++
          formatFix 2 item.capacity ++ " | " ++
          formatFix 3 item.processing_time ++ " |") ∧
      (∀ (data : List EnrichedRecord) (stats : Option TimingStats)
        (item : EnrichedRecord), item ∈ data →
        mdTableRow item ∈ generate_markdown_output data stats) := by
  refine ⟨?_, ?_, ?_, ?_, ?_, ?_⟩
  · intro data
    exact ⟨rfl, by simp [generate_csv_output]⟩
  · intro data i item hi
    simp [generate_csv_output, List.getElem?_map, hi, csvRowOf]
  · intro item s
    rfl
  · intro item h
    simp [mdTableRow, imageDisplay, h]
  · intro item h
    simp [mdTableRow, imageDisplay, h]
  · intro data stats item hmem
    have hrow : mdTableRow item ∈ data.map mdTableRow :=
      List.mem_map_of_mem _ hmem
    unfold generate_markdown_output
    exact List.mem_append_left _ (List.mem_append_left _
      (List.mem_append_left _ (List.mem_append_left _
        (List.mem_append_right _ hrow))))

/-- Witness for C8 on a concrete record with a non-empty image payload. -/
theorem report_outputs_shape_witness :
    (generate_csv_output
        [({ image_id := "1", image_url := "u", height := 2, weight := 3,
            breadth := 4, surface_area := 52, capacity := 24,
            processing_time := 1 / 2, image_base64 := "img" } :
          EnrichedRecord)]).2[0]?
      = some
          [CsvCell.strCell ("1"), CsvCell.strCell ("u"), CsvCell.numCell 2,
            CsvCell.numCell 3, CsvCell.numCell 4,
            CsvCell.numCell (pyround 2 52), CsvCell.numCell (pyround 2 24),
            CsvCell.numCell (pyround 3 (1 / 2))] ∧
      mdTableRow ({ image_id := "1", image_url := "u", height := 2,
                    weight := 3, breadth := 4, surface_area := 52,
                    capacity := 24, processing_time := 1 / 2,
                    image_base64 := "img" } : EnrichedRecord)
        = "| " ++ "1" ++ " | " ++
            ("<img src=\"" ++ "img" ++ "\" alt=\"Box " ++ "1" ++
              "\" width=\"150\" height=\"auto\">") ++ " | " ++
            formatFix 2 52 ++ " | " ++ formatFix 2 24 ++ " | " ++
            formatFix 3 (1 / 2) ++ " |" := by
  constructor
  · exact report_outputs_shape.2.1 _ 0 _ List.getElem?_cons_zero
  · exact report_outputs_shape.2.2.2.1 _ (by decide)
